import Mathlib

/-!
Verification development for the Foodprint-AI carbon-estimation backend.

We give a shallow embedding of the core pipeline:
  * `app/utils/carbon.py` — the deterministic carbon aggregator
    (`estimate_carbon`, `_find_emission_key`, the emission-factor table);
  * `app/services/ingredient_extractor.py` — the lenient JSON extraction
    helpers (`_extract_json_array`, `_extract_json_object`), the retrying
    dish extractor (`extract_ingredients_from_dish`) and the image
    extractor (`extract_ingredients_from_image`);
  * `app/services/content_classifier.py` — the quick non-food heuristic
    and the text/image classifiers' parse-and-normalize steps.

Modelling conventions:
  * Python floats are idealised as exact rationals (ℚ); `round(x, 3)` is
    modelled as exact decimal rounding with ties to even (Python's
    banker's rounding), ignoring binary-representation artifacts.
  * Python exceptions are modelled with `Except String`; a raised
    exception is `Except.error msg` (the message text is schematic).
  * The generative backend is opaque: a function is modelled as receiving
    the backend's raw response text(s) as an explicit argument (the
    prompt strings, which only influence the opaque backend, are not
    reproduced).
  * `json.loads` is modelled by `parseJson` below: a standard JSON
    reader supporting null/true/false, decimal numbers (no exponent
    part), strings with the basic escapes, arrays and objects.  Objects
    are association lists with Python-dict replace-on-duplicate insert.
-/

/-! ## Python string primitives -/

/-- Python `str.strip()`: remove leading and trailing whitespace. -/
def pyStrip (s : String) : String :=
  String.mk (((s.data.dropWhile Char.isWhitespace).reverse.dropWhile Char.isWhitespace).reverse)

/-- Python `str.lower()` (character-wise). -/
def pyLower (s : String) : String :=
  String.mk (s.data.map Char.toLower)

/-- Python `str.split()` with no argument: split on whitespace runs, dropping
empty pieces. -/
def pySplitWS (s : String) : List String :=
  (s.split Char.isWhitespace).filter (fun t => t ≠ "")

/-- Python `sub in s` for strings: contiguous-substring test. -/
def isSubList (sub : List Char) : List Char → Bool
  | [] => sub.isEmpty
  | c :: rest => sub.isPrefixOf (c :: rest) || isSubList sub rest

/-- Python `c.isdigit()` restricted to ASCII digits (the only case the
repository's inputs exercise). -/
def pyIsDigit (c : Char) : Bool := c.isDigit

/-! ## JSON values -/

/-- A JSON value, as produced by `json.loads`.  Numbers are idealised as
exact rationals.  `null` doubles as Python `None` where the source code
stores a `.get` result that may be `None`. -/
inductive Json where
  | null
  | bool (b : Bool)
  | num (q : ℚ)
  | str (s : String)
  | arr (elems : List Json)
  | obj (fields : List (String × Json))

/-- Python truthiness of a `json.loads` value (`None`, `False`, `0`, `""`,
`[]`, `{}` are falsy). -/
def Json.truthy : Json → Bool
  | .null => false
  | .bool b => b
  | .num q => q ≠ 0
  | .str s => s ≠ ""
  | .arr xs => ¬ xs.isEmpty
  | .obj fs => ¬ fs.isEmpty

/-- Python `d.get(k)` on a parsed JSON object: `Json.null` models the
`None` returned for a missing key. -/
def jsonGet (fields : List (String × Json)) (k : String) : Json :=
  match fields.lookup k with
  | some v => v
  | none => Json.null

/-- Python `d.get(k, default)` on a parsed JSON object. -/
def jsonGetD (fields : List (String × Json)) (k : String) (d : Json) : Json :=
  match fields.lookup k with
  | some v => v
  | none => d

/-- Python `a or b` on JSON values: `a` if truthy, else `b`. -/
def pyOr (a b : Json) : Json := if a.truthy then a else b

/-! ## A JSON reader modelling `json.loads`

Fuel-based recursive descent over the character list.  When the fuel is
exhausted the parse fails; callers supply fuel larger than the input
length, which suffices for every input actually parsed in this file.
Unsupported corners of full JSON (exponent notation, `\u` escapes) make
the parse fail, i.e. behave as unparsable text; no claim below depends
on them. -/

/-- JSON whitespace. -/
def jsonWs (c : Char) : Bool := c = ' ' || c = '\n' || c = '\t' || c = '\r'

def skipWs (cs : List Char) : List Char := cs.dropWhile jsonWs

/-- Read the body of a JSON string literal after the opening quote;
returns the content and the remainder after the closing quote. -/
def parseStringBody : List Char → Option (List Char × List Char)
  | [] => none
  | '"' :: rest => some ([], rest)
  | '\\' :: e :: rest =>
      let esc : Option Char :=
        if e = '"' then some '"'
        else if e = '\\' then some '\\'
        else if e = '/' then some '/'
        else if e = 'n' then some '\n'
        else if e = 't' then some '\t'
        else if e = 'r' then some '\r'
        else none
      match esc, parseStringBody rest with
      | some c, some (s, r) => some (c :: s, r)
      | _, _ => none
  | c :: rest =>
      match parseStringBody rest with
      | some (s, r) => some (c :: s, r)
      | none => none

/-- Digits → natural number; `none` when the digit list is empty. -/
def digitsToNat (ds : List Char) : Option ℕ :=
  if ds.isEmpty then none
  else some (ds.foldl (fun a c => a * 10 + (c.toNat - '0'.toNat)) 0)

/-- Read a JSON number (integer part, optional fraction part; no
exponent).  Returns the value and remainder. -/
def parseNumber (cs : List Char) : Option (ℚ × List Char) :=
  let (neg, cs1) :=
    match cs with
    | '-' :: rest => (true, rest)
    | _ => (false, cs)
  let ds := cs1.takeWhile Char.isDigit
  let cs2 := cs1.dropWhile Char.isDigit
  match digitsToNat ds with
  | none => none
  | some ip =>
    match cs2 with
    | '.' :: cs3 =>
      let fs := cs3.takeWhile Char.isDigit
      let cs4 := cs3.dropWhile Char.isDigit
      (match digitsToNat fs with
       | some fp =>
         let v : ℚ := (ip : ℚ) + (fp : ℚ) / ((10 : ℚ) ^ fs.length)
         some (if neg then -v else v, cs4)
       | none => none)
    | _ => some (if neg then -(ip : ℚ) else (ip : ℚ), cs2)

/-- Python-dict insertion: replace the value at an existing key in place,
else append. -/
def insertField (fs : List (String × Json)) (k : String) (v : Json) :
    List (String × Json) :=
  match fs with
  | [] => [(k, v)]
  | (k0, v0) :: rest =>
      if k0 = k then (k0, v) :: rest else (k0, v0) :: insertField rest k v

mutual

/-- Parse one JSON value; returns the value and the remaining input. -/
def parseValue : ℕ → List Char → Option (Json × List Char)
  | 0, _ => none
  | fuel + 1, cs =>
    match skipWs cs with
    | 'n' :: 'u' :: 'l' :: 'l' :: rest => some (Json.null, rest)
    | 't' :: 'r' :: 'u' :: 'e' :: rest => some (Json.bool true, rest)
    | 'f' :: 'a' :: 'l' :: 's' :: 'e' :: rest => some (Json.bool false, rest)
    | '"' :: rest =>
      match parseStringBody rest with
      | some (s, r) => some (Json.str (String.mk s), r)
      | none => none
    | '[' :: rest =>
      (match skipWs rest with
       | ']' :: r => some (Json.arr [], r)
       | _ =>
         match parseElems fuel rest with
         | some (xs, r) => some (Json.arr xs, r)
         | none => none)
    | '\x7b' :: rest =>
      (match skipWs rest with
       | '\x7d' :: r => some (Json.obj [], r)
       | _ =>
         match parseFields fuel rest [] with
         | some (fs, r) => some (Json.obj fs, r)
         | none => none)
    | c :: rest =>
      if c = '-' || c.isDigit then
        match parseNumber (c :: rest) with
        | some (q, r) => some (Json.num q, r)
        | none => none
      else none
    | [] => none

/-- Parse comma-separated array elements up to the closing bracket. -/
def parseElems : ℕ → List Char → Option (List Json × List Char)
  | 0, _ => none
  | fuel + 1, cs =>
    match parseValue fuel cs with
    | none => none
    | some (v, rest) =>
      match skipWs rest with
      | ',' :: r =>
        (match parseElems fuel r with
         | some (vs, r2) => some (v :: vs, r2)
         | none => none)
      | ']' :: r => some ([v], r)
      | _ => none

/-- Parse comma-separated `"key": value` fields up to the closing brace,
with Python-dict duplicate-key replacement. -/
def parseFields : ℕ → List Char → List (String × Json) →
    Option (List (String × Json) × List Char)
  | 0, _, _ => none
  | fuel + 1, cs, acc =>
    match skipWs cs with
    | '"' :: rest =>
      (match parseStringBody rest with
       | none => none
       | some (k, r1) =>
         match skipWs r1 with
         | ':' :: r2 =>
           (match parseValue fuel r2 with
            | none => none
            | some (v, r3) =>
              let acc2 := insertField acc (String.mk k) v
              match skipWs r3 with
              | ',' :: r4 => parseFields fuel r4 acc2
              | '\x7d' :: r4 => some (acc2, r4)
              | _ => none)
         | _ => none)
    | _ => none

end

/-- `json.loads` on a string: parse one value and require only trailing
whitespace after it; any failure models a raised `JSONDecodeError`. -/
def parseJson (s : String) : Option Json :=
  match parseValue (s.length + 2) s.data with
  | some (v, rest) => if (skipWs rest).isEmpty then some v else none
  | none => none

/-! ## Lenient JSON extraction

`_extract_json_array` (ingredient_extractor.py lines 38-54),
`_extract_json_object` (lines 118-142) and `_extract_json_object_loose`
(content_classifier.py lines 60-77).  The fallback regexes
`(\[.*\])` and `(\x7b.*\x7d)` with `re.S` are greedy: they match from the
first opening bracket to the last closing bracket, requiring the closer
strictly after the opener. -/

/-- The span matched by a greedy `re.search` for `open .* close` with
`re.S`: from the first `lc` to the last `rc` after it; `none` when no
such pair exists. -/
def firstToLastSpan (lc rc : Char) (cs : List Char) : Option (List Char) :=
  match cs.dropWhile (fun c => c ≠ lc) with
  | [] => none
  | _ :: rest =>
    match rest.reverse.dropWhile (fun c => c ≠ rc) with
    | [] => none
    | r => some (lc :: r.reverse)

def regexSpanStr (lc rc : Char) (s : String) : Option String :=
  (firstToLastSpan lc rc s.data).map String.mk

/-- `_extract_json_array`: direct `json.loads`; the regex fallback runs
only when the direct parse raised (a successful parse of non-list shape
returns `[]` without trying the fallback, because the `except` branch is
never entered). -/
def extract_json_array (text : String) : List Json :=
  match parseJson text with
  | some (Json.arr xs) => xs
  | some _ => []
  | none =>
    match regexSpanStr '[' ']' text with
    | some sub =>
      (match parseJson sub with
       | some (Json.arr xs) => xs
       | _ => [])
    | none => []

/-- `_extract_json_object`: direct `json.loads` (exceptions swallowed by
`pass`), then — whenever the direct parse did not return a dict — the
greedy-regex fallback. -/
def extract_json_object (text : String) : List (String × Json) :=
  let direct : Option (List (String × Json)) :=
    match parseJson text with
    | some (Json.obj fs) => some fs
    | _ => none
  match direct with
  | some fs => fs
  | none =>
    match regexSpanStr '\x7b' '\x7d' text with
    | some sub =>
      (match parseJson sub with
       | some (Json.obj fs) => fs
       | _ => [])
    | none => []

/-- `_extract_json_object_loose` in content_classifier.py is line-for-line
the same routine as `_extract_json_object`. -/
def extract_json_object_loose (text : String) : List (String × Json) :=
  extract_json_object text

/-! ## Carbon aggregator (app/utils/carbon.py) -/

/-- The static emission-factor table, in source insertion order
(iteration order of the Python dict). -/
def EMISSIONS_PER_KG : List (String × ℚ) :=
  [("beef", 27), ("lamb", 196/5), ("pork", 121/10), ("chicken", 69/10),
   ("rice", 4), ("potato", 3/10), ("tofu", 2), ("vegetable", 1/2),
   ("vegetables", 1/2), ("oil", 6), ("spices", 3/2), ("cheese", 27/2),
   ("milk", 16/5), ("default", 5/2)]

/-- `DEFAULT_DISH_WEIGHT_KG` with the unset-environment default `0.6`. -/
def DEFAULT_DISH_WEIGHT_KG : ℚ := 3/5

/-- `_find_emission_key` (carbon.py lines 25-32): exact lowercase key
match, else the first table key (insertion order) occurring as a
substring of the lowercased name, else `"default"`. -/
def find_emission_key (name : String) : String :=
  let key := pyLower name
  if (EMISSIONS_PER_KG.lookup key).isSome then key
  else
    match EMISSIONS_PER_KG.find? (fun kv => isSubList kv.1.data key.data) with
    | some kv => kv.1
    | none => "default"

/-- Round to the nearest integer with ties to even (Python's `round`
idealised over exact rationals). -/
def roundHalfEven (q : ℚ) : ℤ :=
  let f := ⌊q⌋
  let r := q - (f : ℚ)
  if r < 1/2 then f
  else if 1/2 < r then f + 1
  else if f % 2 = 0 then f else f + 1

/-- Python `round(x, 3)` idealised over ℚ. -/
def round3 (q : ℚ) : ℚ := ((roundHalfEven (q * 1000) : ℤ) : ℚ) / 1000

/-- An ingredient dict as consumed by `estimate_carbon` and produced by
the extractor: `name` is the `"name"` value when present (`none` models
a dict without the key, read back as `"unknown"`), `percentage` is the
`"percentage"` value with `Json.null` for absent-or-None. -/
structure Entry where
  name : Option String
  percentage : Json

/-- Python `float(s)` on a string: optional sign, digits with an optional
fraction part, surrounded by optional whitespace (underscores, exponent
notation, `inf`/`nan` not modelled — such strings behave as unparsable).
-/
def pyParseFloat (s : String) : Option ℚ :=
  let cs := (pyStrip s).data
  let (neg, cs1) :=
    match cs with
    | '-' :: r => (true, r)
    | '+' :: r => (false, r)
    | _ => (false, cs)
  let ip := cs1.takeWhile Char.isDigit
  let cs2 := cs1.dropWhile Char.isDigit
  let (fp, cs3) :=
    match cs2 with
    | '.' :: r => (r.takeWhile Char.isDigit, r.dropWhile Char.isDigit)
    | _ => ([], cs2)
  if cs3.isEmpty && !(ip.isEmpty && fp.isEmpty) then
    let ipN := ip.foldl (fun a c => a * 10 + (c.toNat - '0'.toNat)) 0
    let fpN := fp.foldl (fun a c => a * 10 + (c.toNat - '0'.toNat)) 0
    let v : ℚ := (ipN : ℚ) + (fpN : ℚ) / ((10 : ℚ) ^ fp.length)
    some (if neg then -v else v)
  else none

/-- Python `float(p)`: `some` the value on success, `none` when `float`
raises (dicts, lists, None, unparsable strings). -/
def pyFloat : Json → Option ℚ
  | Json.num q => some q
  | Json.bool b => some (if b then 1 else 0)
  | Json.str s => pyParseFloat s
  | _ => none

/-- carbon.py lines 45-49: `p = float(p) if p is not None else None`
under `try/except` mapping failure to `None`. -/
def parsePct (p : Json) : Option ℚ :=
  match p with
  | Json.null => none
  | v => pyFloat v

def parsedPcts (ings : List Entry) : List (Option ℚ) :=
  ings.map (fun i => parsePct i.percentage)

/-- carbon.py lines 50-52: the accumulation loop `total_pct += p`
guarded by the truthiness test `if p:` (None and 0.0 are skipped),
written with the loop's accumulator made explicit. -/
def totalPctAux (acc : ℚ) : List (Option ℚ) → ℚ
  | [] => acc
  | p :: rest =>
    match p with
    | some q => if q ≠ 0 then totalPctAux (acc + q) rest else totalPctAux acc rest
    | none => totalPctAux acc rest

def totalPct (ps : List (Option ℚ)) : ℚ := totalPctAux 0 ps

/-- carbon.py lines 54-59: the normalization step.  `100.0 / n` raises
`ZeroDivisionError` exactly when the list is empty (an empty list forces
`total_pct == 0`). -/
def normalizePcts (ings : List Entry) : Except String (List ℚ) :=
  let normalized := parsedPcts ings
  let tp := totalPct normalized
  if tp = 0 then
    if ings.length = 0 then Except.error "float division by zero"
    else Except.ok (List.replicate ings.length (100 / (ings.length : ℚ)))
  else
    Except.ok (normalized.map (fun p => (p.getD 0) * (100 / tp)))

/-- carbon.py lines 63-70: the per-ingredient loop body producing
`(name, carbon_kg)` with the per-item 3-decimal rounding. -/
def carbonItems (ings : List Entry) (pcts : List ℚ) : List (String × ℚ) :=
  (ings.zip pcts).map (fun ip =>
    let name := ip.1.name.getD "unknown"
    let key := find_emission_key name
    let e := (EMISSIONS_PER_KG.lookup key).getD (5/2)
    let weight := (ip.2 / 100) * DEFAULT_DISH_WEIGHT_KG
    (name, round3 (e * weight)))

/-- carbon.py lines 62-69: the loop accumulator `total_carbon += carbon`
over the already-rounded per-item values. -/
def sumCarbonAux (acc : ℚ) : List (String × ℚ) → ℚ
  | [] => acc
  | r :: rest => sumCarbonAux (acc + r.2) rest

/-- `estimate_carbon` (carbon.py lines 34-72): normalize percentages,
convert each entry, accumulate the already-rounded per-item values, and
round the accumulated total once more. -/
def estimate_carbon (ings : List Entry) :
    Except String (List (String × ℚ) × ℚ) :=
  match normalizePcts ings with
  | Except.error e => Except.error e
  | Except.ok pcts =>
    let result := carbonItems ings pcts
    let total := round3 (sumCarbonAux 0 result)
    Except.ok (result, total)

/-! ## Ingredient extractor (app/services/ingredient_extractor.py)

The generative backend is opaque; we model the driver as receiving the
raw response text of each backend call (`responses i` is the response to
the `i`-th call).  Prompt texts influence only the opaque backend and
are not reproduced. -/

/-- Outcome of one attempt of the dish-extraction loop body. -/
inductive Attempt where
  | accepted (entries : List Entry)
  | rejected
  | error (msg : String)

/-- Python `.strip()` called on the result of the name `or`-chain:
raises `AttributeError` on any non-string value. -/
def stripAttr : Json → Except String String
  | Json.str s => Except.ok (pyStrip s)
  | _ => Except.error "AttributeError: strip"

/-- Python `total + p` where `p` came from JSON: numbers and booleans add
(True counts as 1), anything else raises `TypeError`. -/
def pyAddNum (acc : ℚ) : Json → Except String ℚ
  | Json.num q => Except.ok (acc + q)
  | Json.bool b => Except.ok (acc + if b then 1 else 0)
  | _ => Except.error "TypeError: unsupported operand"

/-- The entry-cleaning loop (ingredient_extractor.py lines 88-95 and
221-227): skip non-dicts, take the name from `"name"`-else-`"ingredient"`
(truthiness chain, default `""`) stripped, the percentage from
`"percentage"`-else-`"pct"` (truthiness chain, default None), and keep
the entry when the name is non-empty. -/
def cleanItems : List Json → Except String (List (String × Json))
  | [] => Except.ok []
  | item :: rest =>
    match item with
    | Json.obj fs =>
      let rawName := pyOr (jsonGet fs "name") (pyOr (jsonGet fs "ingredient") (Json.str ""))
      (match stripAttr rawName with
       | Except.error e => Except.error e
       | Except.ok name =>
         let pct := pyOr (jsonGet fs "percentage") (pyOr (jsonGet fs "pct") Json.null)
         match cleanItems rest with
         | Except.error e => Except.error e
         | Except.ok tl =>
           Except.ok (if name ≠ "" then (name, pct) :: tl else tl))
    | _ => cleanItems rest

/-- `sum([p or 0 for p in percentages])` (lines 97, 231): truthy
percentages add via `pyAddNum`, falsy ones count 0. -/
def sumPcts (acc : ℚ) : List (String × Json) → Except String ℚ
  | [] => Except.ok acc
  | c :: rest =>
    match pyAddNum acc (pyOr c.2 (Json.num 0)) with
    | Except.error e => Except.error e
    | Except.ok acc2 => sumPcts acc2 rest

/-- The equal-share fill `eq = int(100 / len(cleaned))` (lines 99-101,
208-210, 233-235): every kept entry's percentage becomes the truncated
integer share. -/
def setEqualPct (cleaned : List (String × Json)) : List (String × Json) :=
  let eq : ℤ := ⌊(100 : ℚ) / (cleaned.length : ℚ)⌋
  cleaned.map (fun c => (c.1, Json.num (eq : ℚ)))

/-- `all(c["name"].lower().strip() == dish.lower().strip() ...)`
(line 96). -/
def allNamesEqualDish (dish : String) (cleaned : List (String × Json)) : Bool :=
  cleaned.all (fun c => pyStrip (pyLower c.1) = pyStrip (pyLower dish))

def toEntries (cleaned : List (String × Json)) : List Entry :=
  cleaned.map (fun c => Entry.mk (some c.1) c.2)

/-- One iteration of the dish-extraction loop body (lines 84-102):
parse, clean, and apply the validity policy.  `accepted` carries the
returned list, `rejected` falls through to the retry logic, `error` is a
raised exception. -/
def attemptExtract (dish : String) (text : String) : Attempt :=
  let arr := extract_json_array text
  if arr.isEmpty then Attempt.rejected
  else
    match cleanItems arr with
    | Except.error e => Attempt.error e
    | Except.ok cleaned =>
      if cleaned.length > 1 && !(allNamesEqualDish dish cleaned) then
        match sumPcts 0 cleaned with
        | Except.error e => Attempt.error e
        | Except.ok tp =>
          if tp = 0 then Attempt.accepted (toEntries (setEqualPct cleaned))
          else Attempt.accepted (toEntries cleaned)
      else Attempt.rejected

/-- The retry loop (lines 82-116), with the invariant
`fuel = max_retries + 1 - attempt`.  Returns the result together with
the number of backend calls performed. -/
def extractFromDishAux (dish : String) (responses : ℕ → String) :
    ℕ → ℕ → Except String (List Entry) × ℕ
  | calls, 0 => (Except.ok [Entry.mk (some dish) (Json.num 100)], calls)
  | calls, fuel + 1 =>
    match attemptExtract dish (responses calls) with
    | Attempt.accepted es => (Except.ok es, calls + 1)
    | Attempt.error e => (Except.error e, calls + 1)
    | Attempt.rejected => extractFromDishAux dish responses (calls + 1) fuel

/-- `extract_ingredients_from_dish` (lines 61-116): up to
`max_retries + 1` sequential backend calls; when every attempt is
rejected the synthetic single entry is returned. -/
def extract_ingredients_from_dish (dish : String) (maxRetries : ℕ)
    (responses : ℕ → String) : Except String (List Entry) × ℕ :=
  extractFromDishAux dish responses 0 (maxRetries + 1)

/-- `hint or default` where `hint` is the optional string parameter
(`None` and `""` both fall back). -/
def pyOrStrOpt (h : Option String) (d : String) : String :=
  match h with
  | some s => if s ≠ "" then s else d
  | none => d

/-- The image path's fallback-array loop (lines 197-206): cleaning and
`total_pct += pct or 0` run in the same iteration. -/
def cleanItemsWithSum (tp : ℚ) : List Json → Except String (List (String × Json) × ℚ)
  | [] => Except.ok ([], tp)
  | item :: rest =>
    match item with
    | Json.obj fs =>
      let rawName := pyOr (jsonGet fs "name") (pyOr (jsonGet fs "ingredient") (Json.str ""))
      (match stripAttr rawName with
       | Except.error e => Except.error e
       | Except.ok name =>
         let pct := pyOr (jsonGet fs "percentage") (pyOr (jsonGet fs "pct") Json.null)
         if name ≠ "" then
           match pyAddNum tp (pyOr pct (Json.num 0)) with
           | Except.error e => Except.error e
           | Except.ok tp2 =>
             (match cleanItemsWithSum tp2 rest with
              | Except.error e => Except.error e
              | Except.ok (tl, tpf) => Except.ok ((name, pct) :: tl, tpf))
         else cleanItemsWithSum tp rest)
    | _ => cleanItemsWithSum tp rest

/-- Python `for item in x`: lists iterate elements, strings iterate
1-character strings, dicts iterate their keys; other values raise
`TypeError`. -/
def pyIter : Json → Except String (List Json)
  | Json.arr xs => Except.ok xs
  | Json.str s => Except.ok (s.data.map (fun c => Json.str (String.mk [c])))
  | Json.obj fs => Except.ok (fs.map (fun kv => Json.str kv.1))
  | _ => Except.error "TypeError: not iterable"

/-- `extract_ingredients_from_image` (lines 144-241), modelled on the raw
backend response.  Single attempt, no retry; returns the cleaned entry
list and the dish name. -/
def extract_ingredients_from_image (raw : String) (hint : Option String) :
    Except String (List Entry × String) :=
  let parsed := extract_json_object raw
  if parsed.isEmpty then
    let arr := extract_json_array raw
    if !arr.isEmpty then
      let dish_name := pyOrStrOpt hint "unknown dish"
      match cleanItemsWithSum 0 arr with
      | Except.error e => Except.error e
      | Except.ok (cleaned, tp) =>
        let cleaned2 :=
          if tp = 0 && cleaned.length > 0 then setEqualPct cleaned else cleaned
        Except.ok (toEntries cleaned2, dish_name)
    else
      Except.ok ([Entry.mk (some (pyOrStrOpt hint "unknown")) (Json.num 100)],
                 pyOrStrOpt hint "unknown")
  else
    let dish0 := pyOr (jsonGet parsed "dish")
      (pyOr (jsonGet parsed "title") (pyOr (jsonGet parsed "name") (Json.str "")))
    let ingr := pyOr (jsonGet parsed "ingredients")
      (pyOr (jsonGet parsed "ingredient_list") (Json.arr []))
    let dishFinal :=
      match dish0 with
      | Json.str s => if pyStrip s ≠ "" then s else pyOrStrOpt hint "inferred-dish"
      | _ => pyOrStrOpt hint "inferred-dish"
    match pyIter ingr with
    | Except.error e => Except.error e
    | Except.ok items =>
      match cleanItems items with
      | Except.error e => Except.error e
      | Except.ok cleaned =>
        if cleaned.isEmpty then Except.ok ([], dishFinal)
        else
          match sumPcts 0 cleaned with
          | Except.error e => Except.error e
          | Except.ok tp =>
            let cleaned2 := if tp = 0 then setEqualPct cleaned else cleaned
            Except.ok (toEntries cleaned2, dishFinal)

/-! ## Content classifier (app/services/content_classifier.py) -/

/-- `_NON_FOOD_KEYWORDS` exactly as listed in the source (the set
literal repeats "phone" and "truck"; set semantics make the repeats
harmless and list membership coincides with set membership). -/
def NON_FOOD_KEYWORDS : List String :=
  ["bus", "car", "phone", "man", "woman", "person", "people", "dog", "cat",
   "animal", "tree", "mountain", "river", "building", "house", "laptop",
   "keyboard", "monitor", "shoe", "shoes", "cupboard", "bottle", "bicycle",
   "train", "plane", "chair", "table", "lamp", "camera", "watch", "clock",
   "phone", "truck", "truck", "fish", "bird", "horse", "cow", "sheep",
   "goat", "backpack", "wallet", "bag", "purse"]

/-- `_quick_text_heuristic_is_nonfood` (lines 19-32). -/
def quick_text_heuristic_is_nonfood (text : String) : Bool :=
  if text = "" then true
  else
    let t := pyLower (pyStrip text)
    if (pySplitWS t).length = 1 && NON_FOOD_KEYWORDS.contains t then true
    else if t.length < 3 && !(t.data.any pyIsDigit) then true
    else false

/-- Result dict of `classify_text_as_food`.  `dish` and `message` keep
their raw JSON values (the code does not coerce them to strings). -/
structure TextResult where
  action : String
  is_food : Bool
  dish : Json
  confidence : ℚ
  message : Json

/-- Result dict of `classify_image_as_food`. -/
structure ImageResult where
  action : String
  is_food : Bool
  dish : Json
  contains_human : Bool
  contains_objects : Json
  confidence : ℚ
  message : Json

/-- Python `str(v)` for a JSON-derived value, used by the source only in
the comparison `str(v).lower() == "true"`.  Number/list/dict reprs are
abbreviated to placeholders that—like every real Python repr of such
values—are never equal to `"true"`. -/
def pyStr : Json → String
  | Json.null => "None"
  | Json.bool b => if b then "True" else "False"
  | Json.str s => s
  | Json.num _ => "<number>"
  | Json.arr _ => "<list>"
  | Json.obj _ => "<dict>"

/-- Python `v is True` for a JSON-derived value. -/
def isTrueLiteral : Json → Bool
  | Json.bool b => b
  | _ => false

/-- `bool(parsed.get(k) is True or str(parsed.get(k)).lower() == "true")`
(lines 132, 177, 179). -/
def pyBoolCoerce (v : Json) : Bool :=
  isTrueLiteral v || pyLower (pyStr v) = "true"

/-- `float(parsed.get("confidence") or 0.0)` (lines 134, 181): raises
`ValueError`/`TypeError` when the truthy value is not float-convertible.
-/
def confidenceOf (parsed : List (String × Json)) : Except String ℚ :=
  match pyFloat (pyOr (jsonGet parsed "confidence") (Json.num 0)) with
  | some q => Except.ok q
  | none => Except.error "ValueError: could not convert to float"

/-- Text-path action normalization (lines 127-129):
`parsed.get("action", "").lower()`, and when the result is not a valid
action, derive it from the truthiness of `is_food`. -/
def textActionOf (parsed : List (String × Json)) : Except String String :=
  match jsonGetD parsed "action" (Json.str "") with
  | Json.str s =>
    let a := pyLower s
    Except.ok
      (if a = "accept" || a = "reject" || a = "ask_clarify" then a
       else if !(jsonGet parsed "is_food").truthy then "reject" else "accept")
  | _ => Except.error "AttributeError: lower"

/-- Image-path action normalization (lines 172-174):
`parsed.get("action", "reject").lower()`, and any invalid action becomes
`"reject"` unconditionally. -/
def imageActionOf (parsed : List (String × Json)) : Except String String :=
  match jsonGetD parsed "action" (Json.str "reject") with
  | Json.str s =>
    let a := pyLower s
    Except.ok
      (if a = "accept" || a = "reject" || a = "ask_clarify" then a
       else "reject")
  | _ => Except.error "AttributeError: lower"

/-- The heuristic rejection dict (lines 92-98). -/
def FIXED_TEXT_REJECTION : TextResult :=
  TextResult.mk "reject" false Json.null (19/20)
    (Json.str "Please enter a dish name (e.g. \x27Chicken Biryani\x27) — not a person, object, or place.")

/-- The conservative parse-failure fallback dict (lines 119-125). -/
def FALLBACK_TEXT_RESULT : TextResult :=
  TextResult.mk "reject" false Json.null 0
    (Json.str "Input not recognized as a food dish. Please enter a dish name or upload a photo of a dish.")

/-- The image parse-failure fallback dict (lines 163-171). -/
def FALLBACK_IMAGE_RESULT : ImageResult :=
  ImageResult.mk "reject" false Json.null false (Json.arr []) 0
    (Json.str "Image could not be classified as a dish. Please upload a clear photo of a dish.")

/-- `classify_text_as_food` (lines 79-136), modelled on the raw backend
response `raw` (consulted only when the quick heuristic does not fire).
-/
def classify_text_as_food (text_input : String) (raw : String) :
    Except String TextResult :=
  if quick_text_heuristic_is_nonfood text_input then
    Except.ok FIXED_TEXT_REJECTION
  else
    let parsed := extract_json_object_loose raw
    if parsed.isEmpty then Except.ok FALLBACK_TEXT_RESULT
    else
      match textActionOf parsed with
      | Except.error e => Except.error e
      | Except.ok action =>
        match confidenceOf parsed with
        | Except.error e => Except.error e
        | Except.ok conf =>
          Except.ok (TextResult.mk action
            (pyBoolCoerce (jsonGet parsed "is_food"))
            (jsonGet parsed "dish")
            conf
            (pyOr (jsonGet parsed "message")
              (Json.str "Please upload or enter a dish name.")))

/-- `classify_image_as_food` (lines 138-183), modelled on the raw
backend response. -/
def classify_image_as_food (raw : String) : Except String ImageResult :=
  let parsed := extract_json_object_loose raw
  if parsed.isEmpty then Except.ok FALLBACK_IMAGE_RESULT
  else
    match imageActionOf parsed with
    | Except.error e => Except.error e
    | Except.ok action =>
      match confidenceOf parsed with
      | Except.error e => Except.error e
      | Except.ok conf =>
        Except.ok (ImageResult.mk action
          (pyBoolCoerce (jsonGet parsed "is_food"))
          (jsonGet parsed "dish")
          (pyBoolCoerce (jsonGet parsed "contains_human"))
          (pyOr (jsonGet parsed "contains_objects") (Json.arr []))
          conf
          (pyOr (jsonGet parsed "message")
            (Json.str "Please upload a photo of a dish.")))

/-! ## Helper lemmas -/

theorem sumCarbonAux_eq (l : List (String × ℚ)) (a : ℚ) :
    sumCarbonAux a l = a + (l.map Prod.snd).sum := by
  induction l generalizing a with
  | nil => simp [sumCarbonAux]
  | cons hd tl ih => simp [sumCarbonAux, ih, add_assoc]

theorem totalPctAux_eq (l : List (Option ℚ)) (a : ℚ) :
    totalPctAux a l = a + (l.map (fun p => p.getD 0)).sum := by
  induction l generalizing a with
  | nil => simp [totalPctAux]
  | cons hd tl ih =>
    cases hd with
    | none => simp [totalPctAux, ih, add_assoc]
    | some q =>
      by_cases h : q = 0
      · simp [totalPctAux, h, ih]
      · simp [totalPctAux, h, ih, add_assoc]

theorem totalPct_eq_sum_getD (l : List (Option ℚ)) :
    totalPct l = (l.map (fun p => p.getD 0)).sum := by
  simpa using totalPctAux_eq l 0

theorem filterMap_id_sum_eq (l : List (Option ℚ)) :
    (l.filterMap id).sum = (l.map (fun p => p.getD 0)).sum := by
  induction l with
  | nil => rfl
  | cons hd tl ih => cases hd <;> simp [ih]

theorem sum_map_mul_const (l : List (Option ℚ)) (c : ℚ) :
    (l.map (fun p => p.getD 0 * c)).sum = (l.map (fun p => p.getD 0)).sum * c := by
  induction l with
  | nil => simp
  | cons hd tl ih => simp [ih, add_mul]

/-! ## Claims -/

/-- C1: for every ingredient list on which `estimate_carbon` returns, the
reported total equals the sum of the reported per-ingredient carbon
values rounded once more to 3 decimals, and the per-ingredient values
are themselves the 3-decimal roundings of emission factor × weight
(visible in `carbonItems`): the documented double rounding. -/
theorem C1_total_is_double_rounded_sum (ings : List Entry)
    (res : List (String × ℚ)) (total : ℚ)
    (h : estimate_carbon ings = Except.ok (res, total)) :
    total = round3 ((res.map Prod.snd).sum) ∧
    ∃ pcts, normalizePcts ings = Except.ok pcts ∧ res = carbonItems ings pcts := by
  unfold estimate_carbon at h
  cases hn : normalizePcts ings with
  | error e => rw [hn] at h; exact absurd h (by simp)
  | ok pcts =>
    rw [hn] at h
    simp only [Except.ok.injEq, Prod.mk.injEq] at h
    obtain ⟨hres, htot⟩ := h
    subst hres
    refine ⟨?_, pcts, rfl, rfl⟩
    rw [← htot, sumCarbonAux_eq]
    ring_nf

/-- Witness for C1 at the spec's own example
`estimateCarbon([(Chicken, 100)])` with total `4.14 = 207/50`. -/
theorem C1_witness :
    (207 : ℚ)/50 = round3 (([(("Chicken" : String), (207 : ℚ)/50)].map Prod.snd).sum) :=
  (C1_total_is_double_rounded_sum [Entry.mk (some "Chicken") (Json.num 100)]
    [("Chicken", 207/50)] (207/50) (by with_unfolding_all rfl)).1

/-- C3: for every non-empty entry list whose parsed percentages have
valid values summing to exactly zero, the normalization assigns every
entry the equal share `100 / n`, and these shares sum to 100. -/
theorem C3_zero_valid_sum_equal_shares (ings : List Entry)
    (hne : ings ≠ [])
    (hz : ((parsedPcts ings).filterMap id).sum = 0) :
    normalizePcts ings =
      Except.ok (List.replicate ings.length (100 / (ings.length : ℚ))) ∧
    (List.replicate ings.length (100 / (ings.length : ℚ))).sum = 100 := by
  have hlen : ings.length ≠ 0 := fun h => hne (List.length_eq_zero.mp h)
  have hcast : ((ings.length : ℚ)) ≠ 0 := Nat.cast_ne_zero.mpr hlen
  have htp : totalPct (parsedPcts ings) = 0 := by
    rw [totalPct_eq_sum_getD, ← filterMap_id_sum_eq]; exact hz
  constructor
  · simp [normalizePcts, htp, hlen]
  · rw [List.sum_replicate, nsmul_eq_mul, mul_comm, div_mul_cancel₀ _ hcast]

/-- Witness for C3 at the spec's example `[(Rice), (Spices)]` with no
percentages: both get `100 / 2 = 50`. -/
theorem C3_witness :
    normalizePcts [Entry.mk (some "Rice") Json.null, Entry.mk (some "Spices") Json.null] =
      Except.ok (List.replicate 2 (100 / (2 : ℚ))) ∧
    (List.replicate 2 (100 / (2 : ℚ))).sum = 100 :=
  C3_zero_valid_sum_equal_shares _ (by simp) (by with_unfolding_all decide)

/-- C7 counterexample: with a negative input percentage the rescaling
branch produces a negative normalized percentage, so "each normalized
percentage ≥ 0 for all possible input percentage values including
negative ones" is false on the code. -/
theorem C7_counterexample :
    normalizePcts [Entry.mk (some "a") (Json.num (-50)), Entry.mk (some "b") (Json.num 100)] =
      Except.ok [-100, 200] ∧ ¬ ((0 : ℚ) ≤ -100) := by
  constructor
  · with_unfolding_all rfl
  · norm_num

/-- C7 (amended): after normalization the percentages sum to exactly 100
(exact arithmetic), and every normalized percentage is ≥ 0 provided
every successfully parsed input percentage is ≥ 0. -/
theorem C7_normalized_sum_and_conditional_nonneg (ings : List Entry) (ps : List ℚ)
    (h : normalizePcts ings = Except.ok ps) :
    ps.sum = 100 ∧
    ((∀ q ∈ (parsedPcts ings).filterMap id, 0 ≤ q) → ∀ p ∈ ps, 0 ≤ p) := by
  simp only [normalizePcts] at h
  by_cases htp : totalPct (parsedPcts ings) = 0
  · rw [if_pos htp] at h
    by_cases hlen : ings.length = 0
    · rw [if_pos hlen] at h
      exact absurd h (by simp)
    · rw [if_neg hlen] at h
      simp only [Except.ok.injEq] at h
      subst h
      have hcast : ((ings.length : ℚ)) ≠ 0 := Nat.cast_ne_zero.mpr hlen
      constructor
      · rw [List.sum_replicate, nsmul_eq_mul, mul_comm, div_mul_cancel₀ _ hcast]
      · intro _ p hp
        rw [List.eq_of_mem_replicate hp]
        exact div_nonneg (by norm_num) (Nat.cast_nonneg _)
  · rw [if_neg htp] at h
    simp only [Except.ok.injEq] at h
    subst h
    have hsum : ((parsedPcts ings).map
        (fun p => p.getD 0 * (100 / totalPct (parsedPcts ings)))).sum
        = totalPct (parsedPcts ings) * (100 / totalPct (parsedPcts ings)) := by
      rw [sum_map_mul_const, ← totalPct_eq_sum_getD]
    constructor
    · rw [hsum, mul_comm, div_mul_cancel₀ _ htp]
    · intro hq p hp
      obtain ⟨x, hx, rfl⟩ := List.mem_map.mp hp
      have hgd : ∀ y ∈ parsedPcts ings, 0 ≤ y.getD 0 := by
        intro y hy
        cases y with
        | none => exact le_refl 0
        | some q => exact hq q (List.mem_filterMap.mpr ⟨some q, hy, rfl⟩)
      have htpnn : 0 ≤ totalPct (parsedPcts ings) := by
        rw [totalPct_eq_sum_getD]
        exact List.sum_nonneg (fun y hy => by
          obtain ⟨z, hz2, rfl⟩ := List.mem_map.mp hy
          exact hgd z hz2)
      have htppos : 0 < totalPct (parsedPcts ings) :=
        lt_of_le_of_ne htpnn (Ne.symm htp)
      exact mul_nonneg (hgd x hx) (le_of_lt (div_pos (by norm_num) htppos))

/-- Witness for the amended C7: input `[30, absent]` normalizes to
`[100, 0]`, which sums to 100 with every share ≥ 0. -/
theorem C7_witness :
    (([100, 0] : List ℚ).sum = 100) ∧ (∀ p ∈ ([100, 0] : List ℚ), 0 ≤ p) := by
  have h := C7_normalized_sum_and_conditional_nonneg
    [Entry.mk (some "a") (Json.num 30), Entry.mk (some "b") Json.null] [100, 0]
    (by with_unfolding_all rfl)
  exact ⟨h.1, h.2 (by with_unfolding_all decide)⟩

theorem lookup_isSome_eq_contains (l : List (String × ℚ)) (k : String) :
    (l.lookup k).isSome = (l.map Prod.fst).contains k := by
  induction l with
  | nil => rfl
  | cons hd tl ih =>
    cases h : k == hd.1 with
    | true => simp [List.lookup, h]
    | false => simp [List.lookup, h, ih]

theorem find?_map_fst (l : List (String × ℚ)) (p : String → Bool) :
    (l.map Prod.fst).find? p = (l.find? (fun kv => p kv.1)).map Prod.fst := by
  induction l with
  | nil => rfl
  | cons hd tl ih =>
    cases h : p hd.1 with
    | true => simp [List.find?, h]
    | false => simp [List.find?, h, ih]

/-- The emission-key resolution policy in the spec's own words: exact
lowercase match against the key list first, else the first key (in table
iteration order) appearing as a substring of the lowercased name, else
`"default"`.  Stated separately from `find_emission_key` so that code
and spec can be compared. -/
def findEmissionKeySpec (name : String) : String :=
  let key := pyLower name
  let keys := EMISSIONS_PER_KG.map Prod.fst
  if keys.contains key then key
  else
    match keys.find? (fun k => isSubList k.data key.data) with
    | some k => k
    | none => "default"

/-- C4: emission-key resolution follows the documented exact-then-first-
substring-then-default policy, and "Grilled Chicken Breast" resolves to
the "chicken" factor. -/
theorem C4_emission_key_resolution :
    (∀ name, find_emission_key name = findEmissionKeySpec name) ∧
    find_emission_key "Grilled Chicken Breast" = "chicken" := by
  constructor
  · intro name
    simp only [find_emission_key, findEmissionKeySpec]
    rw [lookup_isSome_eq_contains, find?_map_fst]
    cases hf : EMISSIONS_PER_KG.find?
        (fun kv => isSubList kv.1.data (pyLower name).data) <;> simp [hf]
  · with_unfolding_all rfl

/-- C5 (code bug): the fallback regexes are greedy, spanning from the
first opening bracket to the last closing bracket, so on prose followed
by two separate valid JSON objects the parser tries the invalid combined
span and returns the empty sentinel — while the code's own comment and
the spec promise the first balanced block (which parses fine on its
own).  The array extractor has the same defect. -/
theorem C5_greedy_regex_not_first_block :
    extract_json_object "x \x7b\"a\": 1\x7d y \x7b\"b\": 2\x7d" = [] ∧
    regexSpanStr '\x7b' '\x7d' "x \x7b\"a\": 1\x7d y \x7b\"b\": 2\x7d" =
      some "\x7b\"a\": 1\x7d y \x7b\"b\": 2\x7d" ∧
    parseJson "\x7b\"a\": 1\x7d" = some (Json.obj [("a", Json.num 1)]) ∧
    extract_json_array "pre [1] mid [2] post" = [] := by
  refine ⟨?_, ?_, ?_, ?_⟩ <;> with_unfolding_all rfl

/-- C6: the lenient parsers are total (they are functions, never raising:
every Python exception path is absorbed), return the direct parse on an
exactly-valid JSON string of the requested shape, and return the empty
sentinel on unparsable prose containing no bracketed span. -/
theorem C6_lenient_parsers_total_and_faithful (s : String) :
    (∀ xs, parseJson s = some (Json.arr xs) → extract_json_array s = xs) ∧
    (∀ fs, parseJson s = some (Json.obj fs) → extract_json_object s = fs) ∧
    (parseJson s = none → regexSpanStr '[' ']' s = none →
      extract_json_array s = []) ∧
    (parseJson s = none → regexSpanStr '\x7b' '\x7d' s = none →
      extract_json_object s = []) := by
  refine ⟨?_, ?_, ?_, ?_⟩
  · intro xs hp; simp [extract_json_array, hp]
  · intro fs hp; simp [extract_json_object, hp]
  · intro hp hs; simp [extract_json_array, hp, hs]
  · intro hp hs; simp [extract_json_object, hp, hs]

/-- Witness for C6: an already-valid array and object parse to
themselves; bracket-free prose yields the empty sentinels. -/
theorem C6_witness :
    extract_json_array "[1, 2]" = [Json.num 1, Json.num 2] ∧
    extract_json_object "\x7b\"a\": true\x7d" = [("a", Json.bool true)] ∧
    extract_json_array "plain prose with no brackets" = [] ∧
    extract_json_object "plain prose with no brackets" = [] :=
  ⟨(C6_lenient_parsers_total_and_faithful "[1, 2]").1 _
     (by with_unfolding_all rfl),
   (C6_lenient_parsers_total_and_faithful "\x7b\"a\": true\x7d").2.1 _
     (by with_unfolding_all rfl),
   (C6_lenient_parsers_total_and_faithful "plain prose with no brackets").2.2.1
     (by with_unfolding_all rfl) (by with_unfolding_all rfl),
   (C6_lenient_parsers_total_and_faithful "plain prose with no brackets").2.2.2
     (by with_unfolding_all rfl) (by with_unfolding_all rfl)⟩

/-- A backend that always answers with a parsable array whose entry has a
non-string name. -/
def alwaysBadName : ℕ → String := fun _ => "[\x7b\"name\": true\x7d]"

/-- C2 counterexample: the response `[\x7b"name": true\x7d]` admits no accepted
ingredient array (the attempt raises `AttributeError` in `.strip()` on
the non-string name before the validity policy is reached), yet
`extract_ingredients_from_dish` does not return the synthetic fallback
after 1 + maxRetries attempts — the exception propagates after a single
backend call. -/
theorem C2_counterexample :
    attemptExtract "Pasta" "[\x7b\"name\": true\x7d]" =
      Attempt.error "AttributeError: strip" ∧
    extract_ingredients_from_dish "Pasta" 2 alwaysBadName =
      (Except.error "AttributeError: strip", 1) := by
  constructor <;> with_unfolding_all rfl

/-- C2 (amended): if every backend response is rejected by the validity
policy (rather than raising a type error during entry cleaning), the
extractor performs exactly 1 + maxRetries backend attempts and returns
the single synthetic entry `(dish, 100)`. -/
theorem C2_rejected_attempts_fallback (dish : String) (maxRetries : ℕ)
    (responses : ℕ → String)
    (h : ∀ i, attemptExtract dish (responses i) = Attempt.rejected) :
    extract_ingredients_from_dish dish maxRetries responses =
      (Except.ok [Entry.mk (some dish) (Json.num 100)], maxRetries + 1) := by
  have aux : ∀ fuel calls, extractFromDishAux dish responses calls fuel =
      (Except.ok [Entry.mk (some dish) (Json.num 100)], calls + fuel) := by
    intro fuel
    induction fuel with
    | zero => intro calls; simp [extractFromDishAux]
    | succ n ih =>
      intro calls
      simp only [extractFromDishAux, h calls, ih (calls + 1)]
      have harith : calls + 1 + n = calls + (n + 1) := by omega
      rw [harith]
  unfold extract_ingredients_from_dish
  rw [aux (maxRetries + 1) 0]
  simp

/-- Witness for the amended C2 at the spec's example: with a backend that
always returns unparsable prose, `extractFromDish("Pasta")` with the
default maxRetries = 2 returns exactly `[(Pasta, 100)]` after 3 calls. -/
theorem C2_witness :
    extract_ingredients_from_dish "Pasta" 2 (fun _ => "backend returned prose") =
      (Except.ok [Entry.mk (some "Pasta") (Json.num 100)], 2 + 1) :=
  C2_rejected_attempts_fallback "Pasta" 2 _ (fun _ => by with_unfolding_all rfl)

/-- C8: whenever the trimmed, lower-cased input is a single token from
the non-food keyword set, or has fewer than 3 characters and no digit,
the text classifier returns the fixed rejection (action reject,
confidence 0.95) for every possible backend response `raw` — the
backend is never consulted. -/
theorem C8_heuristic_rejects_without_backend (text raw : String)
    (h : ((pySplitWS (pyLower (pyStrip text))).length = 1 ∧
          (pyLower (pyStrip text)) ∈ NON_FOOD_KEYWORDS) ∨
         ((pyLower (pyStrip text)).length < 3 ∧
          ¬ (pyLower (pyStrip text)).data.any pyIsDigit)) :
    classify_text_as_food text raw = Except.ok FIXED_TEXT_REJECTION := by
  have hh : quick_text_heuristic_is_nonfood text = true := by
    unfold quick_text_heuristic_is_nonfood
    by_cases he : text = ""
    · simp [he]
    · rcases h with ⟨h1, h2⟩ | ⟨h1, h2⟩ <;> simp [he, h1, h2]
  simp [classify_text_as_food, hh]

/-- Witness for C8: the single keyword "bus" is rejected with confidence
0.95 whatever the backend would have said. -/
theorem C8_witness :
    classify_text_as_food "bus" "whatever the backend would say" =
      Except.ok FIXED_TEXT_REJECTION :=
  C8_heuristic_rejects_without_backend "bus" _
    (Or.inl ⟨by with_unfolding_all rfl, by with_unfolding_all decide⟩)

/-- A backend response whose action field is not one of
accept/reject/ask_clarify while is_food is true. -/
def RAW_INVALID_ACTION : String :=
  "\x7b\"action\": \"maybe\", \"is_food\": true, \"confidence\": 1, \"message\": \"m\"\x7d"

/-- C9 counterexample: on the same parsed response with an invalid
action and is_food true, the text path normalizes the action to accept
(derived from is_food) but the image path normalizes it to reject — the
image normalization does not mirror the text path. -/
theorem C9_counterexample :
    jsonGetD (extract_json_object_loose RAW_INVALID_ACTION) "action" (Json.str "") =
      Json.str "maybe" ∧
    classify_text_as_food "chicken curry" RAW_INVALID_ACTION =
      Except.ok (TextResult.mk "accept" true Json.null 1 (Json.str "m")) ∧
    classify_image_as_food RAW_INVALID_ACTION =
      Except.ok (ImageResult.mk "reject" true Json.null false (Json.arr []) 1 (Json.str "m")) := by
  refine ⟨?_, ?_, ?_⟩ <;> with_unfolding_all rfl

/-- C9 (amended): the image classifier coerces every invalid parsed
action to "reject" unconditionally, regardless of is_food (unlike the
text path, which derives accept from a truthy is_food). -/
theorem C9_image_invalid_action_always_rejects (raw : String) (r : ImageResult)
    (s : String)
    (hok : classify_image_as_food raw = Except.ok r)
    (ha : jsonGetD (extract_json_object_loose raw) "action" (Json.str "reject") =
      Json.str s)
    (hinv : pyLower s ≠ "accept" ∧ pyLower s ≠ "reject" ∧ pyLower s ≠ "ask_clarify") :
    r.action = "reject" := by
  simp only [classify_image_as_food] at hok
  by_cases hp : (extract_json_object_loose raw).isEmpty
  · rw [if_pos hp] at hok
    simp only [Except.ok.injEq] at hok
    rw [← hok]
    rfl
  · rw [if_neg hp] at hok
    unfold imageActionOf at hok
    rw [ha] at hok
    obtain ⟨h1, h2, h3⟩ := hinv
    simp only [h1, h2, h3, decide_eq_true_eq, if_false, decide_False,
      Bool.or_false, Bool.false_or, if_neg, ite_false] at hok
    have hok2 : (match confidenceOf (extract_json_object_loose raw) with
      | Except.error e => Except.error e
      | Except.ok conf => Except.ok (ImageResult.mk "reject"
          (pyBoolCoerce (jsonGet (extract_json_object_loose raw) "is_food"))
          (jsonGet (extract_json_object_loose raw) "dish")
          (pyBoolCoerce (jsonGet (extract_json_object_loose raw) "contains_human"))
          (pyOr (jsonGet (extract_json_object_loose raw) "contains_objects") (Json.arr []))
          conf
          (pyOr (jsonGet (extract_json_object_loose raw) "message")
            (Json.str "Please upload a photo of a dish.")))) = Except.ok r := by
      exact hok
    cases hc : confidenceOf (extract_json_object_loose raw) with
    | error e => rw [hc] at hok2; exact absurd hok2 (by simp)
    | ok conf =>
      rw [hc] at hok2
      simp only [Except.ok.injEq] at hok2
      rw [← hok2]

/-- Witness for the amended C9 at the concrete invalid-action response. -/
theorem C9_witness :
    (ImageResult.mk "reject" true Json.null false (Json.arr []) 1 (Json.str "m")).action =
      "reject" :=
  C9_image_invalid_action_always_rejects RAW_INVALID_ACTION _ "maybe"
    (by with_unfolding_all rfl) (by with_unfolding_all rfl)
    (by with_unfolding_all decide)

/-- C10: `estimate_carbon` raises ZeroDivisionError exactly on the empty
entry list (the equal-share branch computes `100.0 / 0`), returns
normally on every non-empty list, and the empty list is reachable:
`extract_ingredients_from_image` returns an empty entry list when the
parsed object carries no valid ingredient entries (the route then feeds
that list straight into `estimate_carbon`). -/
theorem C10_empty_entry_list_divzero_reachable :
    estimate_carbon [] = Except.error "float division by zero" ∧
    (∀ ings : List Entry, ings ≠ [] → ∃ r, estimate_carbon ings = Except.ok r) ∧
    extract_ingredients_from_image
        "\x7b\"dish\": \"mystery stew\", \"ingredients\": []\x7d" (some "leftovers") =
      Except.ok ([], "mystery stew") := by
  refine ⟨by with_unfolding_all rfl, ?_, by with_unfolding_all rfl⟩
  intro ings hne
  have hlen : ings.length ≠ 0 := fun h => hne (List.length_eq_zero.mp h)
  have hnorm : ∃ ps, normalizePcts ings = Except.ok ps := by
    unfold normalizePcts
    by_cases htp : totalPct (parsedPcts ings) = 0
    · simp [htp, hlen]
    · simp [htp]
  obtain ⟨ps, hps⟩ := hnorm
  refine ⟨(carbonItems ings ps, round3 (sumCarbonAux 0 (carbonItems ings ps))), ?_⟩
  unfold estimate_carbon
  rw [hps]

/-- Witness for C10: a one-entry list is processed without error. -/
theorem C10_witness :
    ∃ r, estimate_carbon [Entry.mk (some "Rice") Json.null] = Except.ok r :=
  C10_empty_entry_list_divzero_reachable.2.1 _ (by simp)
